import Mathlib

/-! Swept1D: the classic domain-decomposed 1D grid (`pde_classic.h`).

A shallow embedding of `ClassicDiscretization1D`: the per-process buffer of grid
points with two ghost slots, the construction protocol, `applyOp`, and the
colour mapping `variablesToColor`.

Conventions of the embedding.

* `double` values are exact rationals (`ℚ`); coordinates are computed exactly
  (a division by zero has Lean's value 0; nothing below depends on it).
* The raw buffer `double*` is a flat `List ℚ` in point-major layout; the cast
  `(double(*)[numVar]) data` is index arithmetic `iGrid * numVar + k`.
* A read outside the allocation yields no value, a write outside it is dropped.
* `new double[n]` yields `n` cells of indeterminate content, given by a function
  `junk` from the cell number to the value found there.
* `int` counts that the allocation needs non-negative (`numGrids_`,
  `numVariables_`, the rank) are natural numbers; a channel's variable index,
  which any `int` may set, is an integer.
* `assert` is enabled; a failed assertion ends the run.
* An operator call is the list of values it writes to the output slots of the
  view it is handed.
* The values a process receives from its neighbours are inputs of the
  single-process operations; the chain operations compute them from the
  neighbours' own runs.

Layout: the definitions come first, then the lemmas on buffers and loops, then
one theorem per claim (C1 to C10).
-/

namespace Swept1D

/-! ## Raw buffers -/

/-- The freshly allocated array `new double[n]`: `n` cells, cell `k` holding the
indeterminate value `junk k`. -/
def alloc (junk : Nat → ℚ) (n : Nat) : List ℚ :=
  (List.range n).map junk

/-- Store `vals` into consecutive cells of `data` starting at cell `off`. -/
def writeSlots : List ℚ → Nat → List ℚ → List ℚ
  | data, _, [] => data
  | data, off, v :: vs => writeSlots (data.set off v) (off + 1) vs

/-- The value vector `pData[iGrid]` of a buffer viewed as `double(*)[numVar]`. -/
def readPoint (data : List ℚ) (numVar iGrid : Nat) : List ℚ :=
  (data.drop (iGrid * numVar)).take numVar

/-- Assign the slots `pData[iGrid][0 .. numVar-1]` from `vals`; only the point's
own `numVar` slots are reachable through the view. -/
def writePoint (data : List ℚ) (numVar iGrid : Nat) (vals : List ℚ) : List ℚ :=
  writeSlots data (iGrid * numVar) (vals.take numVar)

/-- The cell `p[idx]` for a signed index; outside the array there is no value. -/
def readCell (data : List ℚ) (idx : Int) : Option ℚ :=
  if idx < 0 then none else data[idx.toNat]?

/-! ## Stencil point views -/

/-- Modelled from the spec: the neighbour reference of a `SpatialPoint`
(`pde_common.h` is not among the sources). A neighbour exposes its coordinate
and its read-only input values, never output slots. -/
structure NeighborView where
  x : ℚ
  inputs : List ℚ
  deriving DecidableEq, Repr

/-- Modelled from the spec: `SpatialPoint<numInput, numOutput>` of
`pde_common.h`, which is not among the sources. The view bundles the point's
coordinate, its read-only input values and the read-only views of the left and
right neighbours (absent until `addNeighbors` attaches them). The writable
output slots are modelled by the value the operator returns. -/
structure SpatialPoint where
  x : ℚ
  inputs : List ℚ
  left : Option NeighborView
  right : Option NeighborView
  deriving DecidableEq, Repr

/-- A local operator `void (&)(SpatialPoint<numInput, numOutput>&)`: what it
writes to the output slots, as a function of the view it is handed. -/
abbrev LocalOperator := SpatialPoint → List ℚ

/-! ## Boundary synchroniser -/

/-- Modelled from the spec: `ClassicSyncer1D` of `pde_common.h`, which is not
among the sources. Construction issues the non-blocking exchange of the leftmost
owned point (index 1, sent to the left neighbour) and of the rightmost owned
point (index `numGrids`, sent to the right neighbour). -/
structure ClassicSyncer1D where
  numGrids : Nat
  numVar : Nat
  toLeft : List ℚ
  toRight : List ℚ
  deriving DecidableEq, Repr

/-- Modelled from the spec: the constructor `ClassicSyncer1D(data, numGrids,
numVar)`, which starts the exchange of the two boundary columns of `data`. -/
def ClassicSyncer1D.start (data : List ℚ) (numGrids numVar : Nat) : ClassicSyncer1D :=
  { numGrids := numGrids
    numVar := numVar
    toLeft := readPoint data numVar 1
    toRight := readPoint data numVar numGrids }

/-- Modelled from the spec: `ClassicSyncer1D::waitTillDone`. Index 0 receives
from the left neighbour's rightmost owned point, index `numGrids + 1` from the
right neighbour's leftmost owned point; a direction without a neighbour
(`none`) is skipped and its ghost slot keeps the value it held. -/
def ClassicSyncer1D.waitTillDone (sync : ClassicSyncer1D) (data : List ℚ)
    (fromLeft fromRight : Option (List ℚ)) : List ℚ :=
  let d := match fromLeft with
    | some m => writePoint data sync.numVar 0 m
    | none => data
  match fromRight with
  | some m => writePoint d sync.numVar (sync.numGrids + 1) m
  | none => d

/-! ## The grid -/

/-- The data members of `ClassicDiscretization1D` (the image writer apart). -/
structure ClassicDiscretization1D where
  numGrids_ : Nat
  dx_ : ℚ
  x0_ : ℚ
  numVariables_ : Nat
  variablesData_ : List ℚ
  deriving DecidableEq, Repr

/-- How a run of a grid operation ended. -/
inductive Status where
  | done
  | assertFailed
  deriving DecidableEq, Repr

/-- The output buffer being filled and the views handed to the operator so far. -/
structure OpRun where
  output : List ℚ
  calls : List SpatialPoint
  deriving DecidableEq, Repr

/-- What a grid operation leaves behind: the object's state, the views on which
the local operator was invoked (in order), and how the run ended. -/
structure Outcome where
  grid : ClassicDiscretization1D
  calls : List SpatialPoint
  status : Status
  deriving DecidableEq, Repr

namespace ClassicDiscretization1D

/-- The offset `x0_ = numGrids_ * dx_ * iProc` set by `commonInit_`, `iProc`
being the rank reported by the runtime. -/
def commonInit_ (numGrids : Nat) (dx : ℚ) (iProc : Nat) : ℚ :=
  numGrids * dx * iProc

/-- The view `p(x0_ + iGrid * dx_, 0, pData[iGrid])` built by
`applyInitialization_`. -/
def initializationPoint (self : ClassicDiscretization1D) (iGrid : Nat) : SpatialPoint :=
  { x := self.x0_ + iGrid * self.dx_, inputs := [], left := none, right := none }

/-- The method `applyInitialization_<numVar>(localOperator, data, iGrid)`. -/
def applyInitialization_ (self : ClassicDiscretization1D) (numVar : Nat)
    (localOperator : LocalOperator) (run : OpRun) (iGrid : Nat) : OpRun :=
  let p := self.initializationPoint iGrid
  { output := writePoint run.output numVar iGrid (localOperator p)
    calls := run.calls ++ [p] }

/-- The object after the member initialisers, `commonInit_` and the allocation
of `numVar * (numGrids_ + 2)` cells. -/
def allocated (iProc numGrids : Nat) (dx : ℚ) (numVar : Nat) (junk : Nat → ℚ) :
    ClassicDiscretization1D :=
  { numGrids_ := numGrids
    dx_ := dx
    x0_ := commonInit_ numGrids dx iProc
    numVariables_ := numVar
    variablesData_ := alloc junk (numVar * (numGrids + 2)) }

/-- The constructor up to the point where the synchroniser is created: the two
boundary points `iGridLeft = 1` and `iGridRight = numGrids_` are initialised. -/
def constructBoundary (iProc numGrids : Nat) (dx : ℚ) (numVar : Nat)
    (localOperator : LocalOperator) (junk : Nat → ℚ) : OpRun :=
  let self := allocated iProc numGrids dx numVar junk
  let iGridLeft := 1
  let iGridRight := numGrids
  let r1 := self.applyInitialization_ numVar localOperator ⟨self.variablesData_, []⟩ iGridLeft
  self.applyInitialization_ numVar localOperator r1 iGridRight

/-- The constructor `ClassicDiscretization1D(numGrids, dx, localOperator)`:
boundary points, exchange issued, interior points `2 .. numGrids_ - 1`, exchange
awaited. -/
def construct (iProc numGrids : Nat) (dx : ℚ) (numVar : Nat)
    (localOperator : LocalOperator) (junk : Nat → ℚ)
    (fromLeft fromRight : Option (List ℚ)) : Outcome :=
  let self := allocated iProc numGrids dx numVar junk
  let r2 := constructBoundary iProc numGrids dx numVar localOperator junk
  let sync := ClassicSyncer1D.start r2.output numGrids numVar
  let r3 := (List.range' 2 (numGrids - 2)).foldl
    (self.applyInitialization_ numVar localOperator) r2
  { grid := { self with
      variablesData_ := sync.waitTillDone r3.output fromLeft fromRight }
    calls := r3.calls
    status := Status.done }

/-- The three views built by `applyLocalOp_` for point `iGrid`, after
`p.addNeighbors(&pL, &pR)`. The left view of point 0 would lie before the
array: it has no values. -/
def localPoint (self : ClassicDiscretization1D) (numInput : Nat) (input : List ℚ)
    (iGrid : Nat) : SpatialPoint :=
  { x := iGrid * self.dx_
    inputs := readPoint input numInput iGrid
    left := some
      { x := ((iGrid : ℚ) - 1) * self.dx_
        inputs := if iGrid = 0 then [] else readPoint input numInput (iGrid - 1) }
    right := some
      { x := ((iGrid : ℚ) + 1) * self.dx_
        inputs := readPoint input numInput (iGrid + 1) } }

/-- The method `applyLocalOp_<numInput, numOutput>(localOperator, input, output,
iGrid)`. -/
def applyLocalOp_ (self : ClassicDiscretization1D) (numInput numOutput : Nat)
    (localOperator : LocalOperator) (input : List ℚ) (run : OpRun) (iGrid : Nat) : OpRun :=
  let p := self.localPoint numInput input iGrid
  { output := writePoint run.output numOutput iGrid (localOperator p)
    calls := run.calls ++ [p] }

/-- The body of `applyOp` after the assertion up to the point where the
synchroniser is created: the new buffer with the two boundary points computed. -/
def applyOpBoundary (self : ClassicDiscretization1D) (numInput numOutput : Nat)
    (localOperator : LocalOperator) (junk : Nat → ℚ) : OpRun :=
  let newVariablesData := alloc junk (numOutput * (self.numGrids_ + 2))
  let iGridLeft := 1
  let iGridRight := self.numGrids_
  let r1 := self.applyLocalOp_ numInput numOutput localOperator self.variablesData_
    ⟨newVariablesData, []⟩ iGridLeft
  self.applyLocalOp_ numInput numOutput localOperator self.variablesData_ r1 iGridRight

/-- The method `applyOp<numInput, numOutput>(localOperator)`. -/
def applyOp (self : ClassicDiscretization1D) (numInput numOutput : Nat)
    (localOperator : LocalOperator) (junk : Nat → ℚ)
    (fromLeft fromRight : Option (List ℚ)) : Outcome :=
  if numInput ≠ self.numVariables_ then
    { grid := self, calls := [], status := Status.assertFailed }
  else
    let r2 := self.applyOpBoundary numInput numOutput localOperator junk
    let sync := ClassicSyncer1D.start r2.output self.numGrids_ numOutput
    let r3 := (List.range' 2 (self.numGrids_ - 2)).foldl
      (self.applyLocalOp_ numInput numOutput localOperator self.variablesData_) r2
    let switched := { self with variablesData_ := r3.output, numVariables_ := numOutput }
    { grid := { switched with
        variablesData_ := sync.waitTillDone switched.variablesData_ fromLeft fromRight }
      calls := r3.calls
      status := Status.done }

/-! ## The synchronous-equivalent ordering -/

/-- The constructor with the exchange awaited immediately after it is issued,
before any interior point is initialised: the ordering the overlap protocol is
compared with. -/
def constructEager (iProc numGrids : Nat) (dx : ℚ) (numVar : Nat)
    (localOperator : LocalOperator) (junk : Nat → ℚ)
    (fromLeft fromRight : Option (List ℚ)) : Outcome :=
  let self := allocated iProc numGrids dx numVar junk
  let r2 := constructBoundary iProc numGrids dx numVar localOperator junk
  let sync := ClassicSyncer1D.start r2.output numGrids numVar
  let awaited : OpRun :=
    { output := sync.waitTillDone r2.output fromLeft fromRight, calls := r2.calls }
  let r3 := (List.range' 2 (numGrids - 2)).foldl
    (self.applyInitialization_ numVar localOperator) awaited
  { grid := { self with variablesData_ := r3.output }
    calls := r3.calls
    status := Status.done }

/-- The method `applyOp` with the exchange awaited immediately after it is
issued, before any interior point is computed. -/
def applyOpEager (self : ClassicDiscretization1D) (numInput numOutput : Nat)
    (localOperator : LocalOperator) (junk : Nat → ℚ)
    (fromLeft fromRight : Option (List ℚ)) : Outcome :=
  if numInput ≠ self.numVariables_ then
    { grid := self, calls := [], status := Status.assertFailed }
  else
    let r2 := self.applyOpBoundary numInput numOutput localOperator junk
    let sync := ClassicSyncer1D.start r2.output self.numGrids_ numOutput
    let awaited : OpRun :=
      { output := sync.waitTillDone r2.output fromLeft fromRight, calls := r2.calls }
    let r3 := (List.range' 2 (self.numGrids_ - 2)).foldl
      (self.applyLocalOp_ numInput numOutput localOperator self.variablesData_) awaited
    { grid := { self with variablesData_ := r3.output, numVariables_ := numOutput }
      calls := r3.calls
      status := Status.done }

/-! ## Chains of ranks -/

/-- The exchange a rank issues during `applyOp`: the synchroniser created on its
new buffer once both boundary points are computed. -/
def applyOpSync (self : ClassicDiscretization1D) (numInput numOutput : Nat)
    (localOperator : LocalOperator) (junk : Nat → ℚ) : ClassicSyncer1D :=
  ClassicSyncer1D.start (self.applyOpBoundary numInput numOutput localOperator junk).output
    self.numGrids_ numOutput

/-- One `applyOp` step on rank `r` of a chain in which every rank runs the same
step: the rank receives what its neighbours' synchronisers sent, rank `r - 1`
its rightmost owned point and rank `r + 1` its leftmost one; an edge rank has no
partner on that side. `junk r` is the content of the memory rank `r` allocates.
The neighbours are taken to reach their exchange, that is, to pass the
assertion. -/
def chainApplyOp (ranks : List ClassicDiscretization1D) (numInput numOutput : Nat)
    (localOperator : LocalOperator) (junk : Nat → Nat → ℚ) (r : Nat) : Option Outcome :=
  (ranks[r]?).map fun self =>
    let fromLeft :=
      if r = 0 then none
      else (ranks[r - 1]?).map fun nb =>
        (nb.applyOpSync numInput numOutput localOperator (junk (r - 1))).toRight
    let fromRight :=
      (ranks[r + 1]?).map fun nb =>
        (nb.applyOpSync numInput numOutput localOperator (junk (r + 1))).toLeft
    self.applyOp numInput numOutput localOperator (junk r) fromLeft fromRight

/-- The exchange a rank issues during construction. -/
def constructSync (iProc numGrids : Nat) (dx : ℚ) (numVar : Nat)
    (localOperator : LocalOperator) (junk : Nat → ℚ) : ClassicSyncer1D :=
  ClassicSyncer1D.start (constructBoundary iProc numGrids dx numVar localOperator junk).output
    numGrids numVar

/-- Construction on rank `r` of a chain of `numProcs` ranks that all run the
same program. -/
def chainConstruct (numProcs numGrids : Nat) (dx : ℚ) (numVar : Nat)
    (localOperator : LocalOperator) (junk : Nat → Nat → ℚ) (r : Nat) : Option Outcome :=
  if r < numProcs then
    let fromLeft :=
      if r = 0 then none
      else some (constructSync (r - 1) numGrids dx numVar localOperator (junk (r - 1))).toRight
    let fromRight :=
      if r + 1 < numProcs then
        some (constructSync (r + 1) numGrids dx numVar localOperator (junk (r + 1))).toLeft
      else none
    some (construct r numGrids dx numVar localOperator (junk r) fromLeft fromRight)
  else none

end ClassicDiscretization1D

/-! ## Colour mapping -/

/-- The class `VarColor_`: the variable shown on a channel and the range mapped
to the unit interval. -/
structure VarColor_ where
  iVar_ : Int
  low_ : ℚ
  high_ : ℚ
  deriving DecidableEq, Repr

/-- The method `VarColor_::set`. -/
def VarColor_.set (_c : VarColor_) (iVar : Int) (low high : ℚ) : VarColor_ :=
  { iVar_ := iVar, low_ := low, high_ := high }

/-- The check of `VarColor_::assertIVarLessThan`: `iVar_ < numVars`. -/
def VarColor_.assertIVarLessThan (c : VarColor_) (numVars : Nat) : Bool :=
  decide (c.iVar_ < (numVars : Int))

/-- The method `VarColor_::map` on the pointer `pVal = data + base`:
`(pVal[iVar_] - low_) / (high_ - low_)`. -/
def VarColor_.map (c : VarColor_) (data : List ℚ) (base : Nat) : Option ℚ :=
  (readCell data ((base : Int) + c.iVar_)).map fun v => (v - c.low_) / (c.high_ - c.low_)

/-- The member `colorMap` with its three channels. -/
structure ColorMap where
  red : VarColor_
  green : VarColor_
  blue : VarColor_
  deriving DecidableEq, Repr

/-- The check of `colorMap.assertIVarLessThan`: the three channels in turn. -/
def ColorMap.assertIVarLessThan (m : ColorMap) (numVars : Nat) : Bool :=
  m.red.assertIVarLessThan numVars && m.green.assertIVarLessThan numVars &&
    m.blue.assertIVarLessThan numVars

/-- Modelled from the spec: the `(column, row, R, G, B)` tuple handed to the
image writer by one call `png_.set(column, row, r, g, b)` (`PngWriter.hpp` is
not among the sources). -/
structure Pixel where
  column : Nat
  row : Int
  r : ℚ
  g : ℚ
  b : ℚ
  deriving DecidableEq, Repr

/-- How a run of `variablesToColor` ended: normally, at the assertion, or at a
read outside the buffer. -/
inductive ColorStatus where
  | done
  | assertFailed
  | outsideBuffer
  deriving DecidableEq, Repr

/-- The trace of `variablesToColor`: the tuples handed to the image writer, the
buffer cells dereferenced (flat indices), and how the run ended. -/
structure ColorRun where
  pixels : List Pixel
  reads : List Int
  status : ColorStatus
  deriving DecidableEq, Repr

namespace ClassicDiscretization1D

/-- The loop of `variablesToColor` over the remaining values of `iGrid`. -/
def variablesToColorLoop (self : ClassicDiscretization1D) (colorMap : ColorMap) (iStep : Int) :
    List Nat → ColorRun → ColorRun
  | [], run => run
  | iGrid :: rest, run =>
    if colorMap.assertIVarLessThan self.numVariables_ = false then
      { run with status := ColorStatus.assertFailed }
    else
      let pGrid := iGrid * self.numVariables_
      let reads := run.reads ++
        [(pGrid : Int) + colorMap.red.iVar_, (pGrid : Int) + colorMap.green.iVar_,
          (pGrid : Int) + colorMap.blue.iVar_]
      match colorMap.red.map self.variablesData_ pGrid,
          colorMap.green.map self.variablesData_ pGrid,
          colorMap.blue.map self.variablesData_ pGrid with
      | some r, some g, some b =>
        variablesToColorLoop self colorMap iStep rest
          { pixels := run.pixels ++ [⟨iGrid, iStep, r, g, b⟩], reads := reads,
            status := ColorStatus.done }
      | _, _, _ => { run with reads := reads, status := ColorStatus.outsideBuffer }

/-- The method `variablesToColor(iStep)`: `iGrid` runs from 0 below
`numGrids_`. -/
def variablesToColor (self : ClassicDiscretization1D) (colorMap : ColorMap) (iStep : Int) :
    ColorRun :=
  variablesToColorLoop self colorMap iStep (List.range self.numGrids_)
    { pixels := [], reads := [], status := ColorStatus.done }

/-! ## Proof vocabulary and sample data -/

/-- The processing order of the owned points: both boundary points, then the
interior. -/
def sweepOrder (numGrids : Nat) : List Nat :=
  1 :: numGrids :: List.range' 2 (numGrids - 2)

/-- A sample grid: two owned points holding 10 and 20 between ghost values 5 and
40, one variable, spacing 1/2. -/
def sampleGrid : ClassicDiscretization1D :=
  { numGrids_ := 2, dx_ := 1 / 2, x0_ := 0, numVariables_ := 1,
    variablesData_ := [5, 10, 20, 40] }

/-- A sample operator with one output: the coordinate plus the sum of the three
stencil inputs. -/
def sampleOperator : LocalOperator := fun p =>
  [p.x + p.inputs.sum + ((p.left.map (fun n => n.inputs.sum)).getD 0) +
    ((p.right.map (fun n => n.inputs.sum)).getD 0)]

/-- A sample operator with two outputs: the coordinate and the sum of the
centre inputs. -/
def sampleOperator2 : LocalOperator := fun p => [p.x, p.inputs.sum]

/-- The initialiser of the end-to-end scenario: one variable, set to the point's
coordinate. -/
def coordinateInitializer : LocalOperator := fun p => [p.x]

/-- The grid of rank `r` in the end-to-end scenario, as constructed without
neighbours: four points of spacing 1 holding their coordinates. -/
def rankGrid (r : Nat) : ClassicDiscretization1D :=
  (construct r 4 1 1 coordinateInitializer (fun _ => 0) none none).grid

/-- A colour map showing variable 0 on every channel, mapped from `[0, 1]`. -/
def unitColorMap : ColorMap :=
  { red := ⟨0, 0, 1⟩, green := ⟨0, 0, 1⟩, blue := ⟨0, 0, 1⟩ }

end ClassicDiscretization1D

/-- The buffer after the points `idxs` have been assigned, point `i` receiving
`f i`: what a loop of operator applications does to its output buffer. -/
def writeAll (numVar : Nat) (f : Nat → List ℚ) (data : List ℚ) (idxs : List Nat) : List ℚ :=
  idxs.foldl (fun d i => writePoint d numVar i (f i)) data

/-! ## Buffer lemmas -/

theorem length_alloc (junk : Nat → ℚ) (n : Nat) : (alloc junk n).length = n := by
  simp [alloc]

theorem length_writeSlots (vals : List ℚ) : ∀ (data : List ℚ) (off : Nat),
    (writeSlots data off vals).length = data.length := by
  induction vals with
  | nil => intro data off; rfl
  | cons v vs ih => intro data off; simp [writeSlots, ih]

theorem getElem?_writeSlots (vals : List ℚ) : ∀ (data : List ℚ) (off j : Nat),
    (writeSlots data off vals)[j]? =
      if off ≤ j ∧ j < off + vals.length ∧ j < data.length then vals[j - off]? else data[j]? := by
  induction vals with
  | nil =>
    intro data off j
    have h : ¬ (off ≤ j ∧ j < off + ([] : List ℚ).length ∧ j < data.length) := by
      simp only [List.length_nil]; omega
    rw [if_neg h]; rfl
  | cons v vs ih =>
    intro data off j
    simp only [writeSlots, ih, List.length_set, List.length_cons]
    by_cases h1 : off + 1 ≤ j ∧ j < off + 1 + vs.length ∧ j < data.length
    · have h2 : off ≤ j ∧ j < off + (vs.length + 1) ∧ j < data.length := by omega
      rw [if_pos h1, if_pos h2]
      have h3 : j - off = (j - (off + 1)) + 1 := by omega
      rw [h3, List.getElem?_cons_succ]
    · rw [if_neg h1]
      by_cases h4 : off = j
      · subst h4
        by_cases h5 : off < data.length
        · have h2 : off ≤ off ∧ off < off + (vs.length + 1) ∧ off < data.length := by omega
          rw [if_pos h2]
          simp [List.getElem?_set, h5]
        · have h2 : ¬ (off ≤ off ∧ off < off + (vs.length + 1) ∧ off < data.length) := by omega
          rw [if_neg h2]
          have h6 : data.length ≤ off := by omega
          rw [List.getElem?_eq_none h6, List.getElem?_eq_none (by simpa using h6)]
      · have h2 : ¬ (off ≤ j ∧ j < off + (vs.length + 1) ∧ j < data.length) := by omega
        rw [if_neg h2]
        simp [List.getElem?_set, h4]

theorem length_writePoint (data : List ℚ) (numVar iGrid : Nat) (vals : List ℚ) :
    (writePoint data numVar iGrid vals).length = data.length := by
  simp [writePoint, length_writeSlots]

theorem getElem?_readPoint (data : List ℚ) (numVar iGrid k : Nat) :
    (readPoint data numVar iGrid)[k]? =
      if k < numVar then data[iGrid * numVar + k]? else none := by
  simp only [readPoint, List.getElem?_take, List.getElem?_drop]

theorem point_ranges_apart (i j n : Nat) (h : i ≠ j) :
    i * n + n ≤ j * n ∨ j * n + n ≤ i * n := by
  rcases Nat.lt_or_gt_of_ne h with h1 | h1
  · left
    have h2 : (i + 1) * n ≤ j * n := Nat.mul_le_mul_right n h1
    rw [Nat.add_mul, Nat.one_mul] at h2
    exact h2
  · right
    have h2 : (j + 1) * n ≤ i * n := Nat.mul_le_mul_right n h1
    rw [Nat.add_mul, Nat.one_mul] at h2
    exact h2

theorem readPoint_writePoint_ne (data : List ℚ) (numVar i j : Nat) (vals : List ℚ)
    (h : i ≠ j) :
    readPoint (writePoint data numVar i vals) numVar j = readPoint data numVar j := by
  apply List.ext_getElem?
  intro k
  rw [getElem?_readPoint, getElem?_readPoint]
  by_cases hk : k < numVar
  · rw [if_pos hk, if_pos hk, writePoint, getElem?_writeSlots]
    have hl : (vals.take numVar).length ≤ numVar := by simp
    have hd := point_ranges_apart i j numVar h
    rw [if_neg (by omega)]
  · rw [if_neg hk, if_neg hk]

theorem readPoint_writePoint_same (data : List ℚ) (numVar i : Nat) (vals : List ℚ)
    (hlen : vals.length = numVar) (hfit : i * numVar + numVar ≤ data.length) :
    readPoint (writePoint data numVar i vals) numVar i = vals := by
  apply List.ext_getElem?
  intro k
  rw [getElem?_readPoint]
  by_cases hk : k < numVar
  · rw [if_pos hk, writePoint, getElem?_writeSlots]
    have hl : (vals.take numVar).length = numVar := by simp [hlen]
    rw [if_pos (by omega)]
    have hk2 : i * numVar + k - i * numVar = k := by omega
    rw [hk2, List.take_of_length_le (by omega)]
  · rw [if_neg hk]
    symm
    apply List.getElem?_eq_none
    omega

theorem writePoint_comm (data : List ℚ) (numVar i j : Nat) (a b : List ℚ) (h : i ≠ j) :
    writePoint (writePoint data numVar i a) numVar j b =
      writePoint (writePoint data numVar j b) numVar i a := by
  apply List.ext_getElem?
  intro m
  simp only [writePoint, getElem?_writeSlots, length_writeSlots]
  have hla : (a.take numVar).length ≤ numVar := by simp
  have hlb : (b.take numVar).length ≤ numVar := by simp
  have hd := point_ranges_apart i j numVar h
  split_ifs <;> first | rfl | omega

/-! ## Loops over grid points -/

theorem foldl_run_eq (step : OpRun → Nat → OpRun) (numVar : Nat) (f : Nat → List ℚ)
    (p : Nat → SpatialPoint)
    (hstep : ∀ run i, step run i = ⟨writePoint run.output numVar i (f i), run.calls ++ [p i]⟩)
    (idxs : List Nat) : ∀ run : OpRun,
    idxs.foldl step run = ⟨writeAll numVar f run.output idxs, run.calls ++ idxs.map p⟩ := by
  induction idxs with
  | nil => intro run; simp [writeAll]
  | cons i rest ih =>
    intro run
    rw [List.foldl_cons, ih, hstep]
    simp [writeAll]

theorem length_writeAll (numVar : Nat) (f : Nat → List ℚ) (idxs : List Nat) :
    ∀ data : List ℚ, (writeAll numVar f data idxs).length = data.length := by
  induction idxs with
  | nil => intro data; rfl
  | cons i rest ih =>
    intro data
    have h := ih (writePoint data numVar i (f i))
    rw [length_writePoint] at h
    exact h

theorem readPoint_writeAll_not_mem (numVar : Nat) (f : Nat → List ℚ) (j : Nat)
    (idxs : List Nat) : ∀ data : List ℚ, j ∉ idxs →
    readPoint (writeAll numVar f data idxs) numVar j = readPoint data numVar j := by
  induction idxs with
  | nil => intro data _; rfl
  | cons i rest ih =>
    intro data hj
    have hne : i ≠ j := fun h => hj (by simp [h])
    have hrest : j ∉ rest := fun h => hj (by simp [h])
    have h := ih (writePoint data numVar i (f i)) hrest
    rw [readPoint_writePoint_ne data numVar i j (f i) hne] at h
    exact h

theorem readPoint_writeAll_mem (numVar : Nat) (f : Nat → List ℚ) (j : Nat)
    (hlen : (f j).length = numVar) (idxs : List Nat) : ∀ data : List ℚ, j ∈ idxs →
    j * numVar + numVar ≤ data.length →
    readPoint (writeAll numVar f data idxs) numVar j = f j := by
  induction idxs with
  | nil => intro data hj; simp at hj
  | cons i rest ih =>
    intro data hj hfit
    by_cases hrest : j ∈ rest
    · exact ih (writePoint data numVar i (f i)) hrest (by rw [length_writePoint]; exact hfit)
    · have hij : j = i := by
        rcases List.mem_cons.mp hj with h | h
        · exact h
        · exact absurd h hrest
      subst hij
      have h := readPoint_writeAll_not_mem numVar f j rest (writePoint data numVar j (f j)) hrest
      rw [readPoint_writePoint_same data numVar j (f j) hlen hfit] at h
      exact h

theorem writeAll_writePoint_comm (numVar : Nat) (f : Nat → List ℚ) (g : Nat) (m : List ℚ)
    (idxs : List Nat) : ∀ data : List ℚ, g ∉ idxs →
    writeAll numVar f (writePoint data numVar g m) idxs =
      writePoint (writeAll numVar f data idxs) numVar g m := by
  induction idxs with
  | nil => intro data _; rfl
  | cons i rest ih =>
    intro data hg
    have hne : g ≠ i := fun h => hg (by simp [h])
    have hrest : g ∉ rest := fun h => hg (by simp [h])
    have h := ih (writePoint data numVar i (f i)) hrest
    rw [← writePoint_comm data numVar g i m (f i) hne] at h
    exact h

/-! ## The synchroniser's effect on a buffer -/

theorem length_waitTillDone (sync : ClassicSyncer1D) (data : List ℚ)
    (fromLeft fromRight : Option (List ℚ)) :
    (sync.waitTillDone data fromLeft fromRight).length = data.length := by
  cases fromLeft <;> cases fromRight <;>
    simp [ClassicSyncer1D.waitTillDone, length_writePoint]

theorem readPoint_waitTillDone_owned (sync : ClassicSyncer1D) (numGrids numVar : Nat)
    (hg : sync.numGrids = numGrids) (hv : sync.numVar = numVar) (data : List ℚ)
    (fromLeft fromRight : Option (List ℚ)) (j : Nat) (h1 : 1 ≤ j) (h2 : j ≤ numGrids) :
    readPoint (sync.waitTillDone data fromLeft fromRight) numVar j =
      readPoint data numVar j := by
  subst hg hv
  have hl : 0 ≠ j := by omega
  have hr : sync.numGrids + 1 ≠ j := by omega
  cases fromLeft <;> cases fromRight <;>
    simp [ClassicSyncer1D.waitTillDone, readPoint_writePoint_ne _ _ _ _ _ hl,
      readPoint_writePoint_ne _ _ _ _ _ hr]

theorem readPoint_waitTillDone_right (sync : ClassicSyncer1D) (numGrids numVar : Nat)
    (hg : sync.numGrids = numGrids) (hv : sync.numVar = numVar) (data : List ℚ)
    (fromLeft : Option (List ℚ)) (m : List ℚ) (hm : m.length = numVar)
    (hfit : (numGrids + 1) * numVar + numVar ≤ data.length) :
    readPoint (sync.waitTillDone data fromLeft (some m)) numVar (numGrids + 1) = m := by
  subst hg hv
  cases fromLeft with
  | none =>
    simp only [ClassicSyncer1D.waitTillDone]
    exact readPoint_writePoint_same _ _ _ _ hm hfit
  | some l =>
    simp only [ClassicSyncer1D.waitTillDone]
    exact readPoint_writePoint_same _ _ _ _ hm (by rw [length_writePoint]; exact hfit)

theorem readPoint_waitTillDone_left (sync : ClassicSyncer1D) (numVar : Nat)
    (hv : sync.numVar = numVar) (data : List ℚ)
    (fromRight : Option (List ℚ)) (m : List ℚ) (hm : m.length = numVar)
    (hfit : numVar ≤ data.length) :
    readPoint (sync.waitTillDone data (some m) fromRight) numVar 0 = m := by
  subst hv
  have h0 : 0 * sync.numVar + sync.numVar ≤ data.length := by omega
  cases fromRight with
  | none =>
    simp only [ClassicSyncer1D.waitTillDone]
    exact readPoint_writePoint_same _ _ _ _ hm h0
  | some r =>
    simp only [ClassicSyncer1D.waitTillDone]
    rw [readPoint_writePoint_ne _ _ _ _ _ (Nat.succ_ne_zero _)]
    exact readPoint_writePoint_same _ _ _ _ hm h0

/-! ## `applyOp` -/

namespace ClassicDiscretization1D

theorem applyLocalOp_eq (self : ClassicDiscretization1D) (numInput numOutput : Nat)
    (localOperator : LocalOperator) (input : List ℚ) (run : OpRun) (iGrid : Nat) :
    self.applyLocalOp_ numInput numOutput localOperator input run iGrid =
      ⟨writePoint run.output numOutput iGrid
          (localOperator (self.localPoint numInput input iGrid)),
        run.calls ++ [self.localPoint numInput input iGrid]⟩ := rfl

theorem mem_sweepOrder (numGrids i : Nat) (h1 : 1 ≤ i) (h2 : i ≤ numGrids) :
    i ∈ sweepOrder numGrids := by
  simp only [sweepOrder, List.mem_cons, List.mem_range'_1]
  omega

theorem ghost_not_mem_interior (numGrids g : Nat) (h : g = 0 ∨ g = numGrids + 1) :
    g ∉ List.range' 2 (numGrids - 2) := by
  simp only [List.mem_range'_1]
  omega

theorem applyOpBoundary_eq (self : ClassicDiscretization1D) (numInput numOutput : Nat)
    (localOperator : LocalOperator) (junk : Nat → ℚ) :
    self.applyOpBoundary numInput numOutput localOperator junk =
      ⟨writeAll numOutput
          (fun i => localOperator (self.localPoint numInput self.variablesData_ i))
          (alloc junk (numOutput * (self.numGrids_ + 2))) [1, self.numGrids_],
        [self.localPoint numInput self.variablesData_ 1,
          self.localPoint numInput self.variablesData_ self.numGrids_]⟩ := rfl

theorem applyOp_ok (self : ClassicDiscretization1D) (numInput numOutput : Nat)
    (localOperator : LocalOperator) (junk : Nat → ℚ)
    (fromLeft fromRight : Option (List ℚ)) (hpre : numInput = self.numVariables_) :
    self.applyOp numInput numOutput localOperator junk fromLeft fromRight =
      let f := fun i => localOperator (self.localPoint numInput self.variablesData_ i)
      let boundary := writeAll numOutput f (alloc junk (numOutput * (self.numGrids_ + 2)))
        [1, self.numGrids_]
      { grid :=
          { self with
            variablesData_ :=
              (ClassicSyncer1D.start boundary self.numGrids_ numOutput).waitTillDone
                (writeAll numOutput f (alloc junk (numOutput * (self.numGrids_ + 2)))
                  (sweepOrder self.numGrids_))
                fromLeft fromRight
            numVariables_ := numOutput }
        calls := (sweepOrder self.numGrids_).map
          (fun i => self.localPoint numInput self.variablesData_ i)
        status := Status.done } := by
  have hfold := foldl_run_eq
    (self.applyLocalOp_ numInput numOutput localOperator self.variablesData_) numOutput
    (fun i => localOperator (self.localPoint numInput self.variablesData_ i))
    (fun i => self.localPoint numInput self.variablesData_ i)
    (fun run i => applyLocalOp_eq self numInput numOutput localOperator _ run i)
    (List.range' 2 (self.numGrids_ - 2))
    (self.applyOpBoundary numInput numOutput localOperator junk)
  simp only [applyOp, hpre, ne_eq, not_true_eq_false, if_false]
  rw [← hpre, hfold, applyOpBoundary_eq]
  simp [writeAll, sweepOrder]

end ClassicDiscretization1D

theorem waitTillDone_writeAll_comm (sync : ClassicSyncer1D) (numGrids numVar : Nat)
    (hg : sync.numGrids = numGrids) (hv : sync.numVar = numVar) (f : Nat → List ℚ)
    (data : List ℚ) (fromLeft fromRight : Option (List ℚ)) :
    sync.waitTillDone (writeAll numVar f data (List.range' 2 (numGrids - 2))) fromLeft fromRight =
      writeAll numVar f (sync.waitTillDone data fromLeft fromRight)
        (List.range' 2 (numGrids - 2)) := by
  subst hg hv
  have h0 := ClassicDiscretization1D.ghost_not_mem_interior sync.numGrids 0 (Or.inl rfl)
  have h1 := ClassicDiscretization1D.ghost_not_mem_interior sync.numGrids (sync.numGrids + 1)
    (Or.inr rfl)
  cases fromLeft <;> cases fromRight <;>
    simp only [ClassicSyncer1D.waitTillDone, writeAll_writePoint_comm _ _ _ _ _ _ h0,
      writeAll_writePoint_comm _ _ _ _ _ _ h1]

namespace ClassicDiscretization1D

theorem applyInitialization_eq (self : ClassicDiscretization1D) (numVar : Nat)
    (localOperator : LocalOperator) (run : OpRun) (iGrid : Nat) :
    self.applyInitialization_ numVar localOperator run iGrid =
      ⟨writePoint run.output numVar iGrid (localOperator (self.initializationPoint iGrid)),
        run.calls ++ [self.initializationPoint iGrid]⟩ := rfl

theorem constructBoundary_eq (iProc numGrids : Nat) (dx : ℚ) (numVar : Nat)
    (localOperator : LocalOperator) (junk : Nat → ℚ) :
    constructBoundary iProc numGrids dx numVar localOperator junk =
      ⟨writeAll numVar
          (fun i => localOperator
            ((allocated iProc numGrids dx numVar junk).initializationPoint i))
          (alloc junk (numVar * (numGrids + 2))) [1, numGrids],
        [(allocated iProc numGrids dx numVar junk).initializationPoint 1,
          (allocated iProc numGrids dx numVar junk).initializationPoint numGrids]⟩ := rfl

theorem construct_ok (iProc numGrids : Nat) (dx : ℚ) (numVar : Nat)
    (localOperator : LocalOperator) (junk : Nat → ℚ)
    (fromLeft fromRight : Option (List ℚ)) :
    construct iProc numGrids dx numVar localOperator junk fromLeft fromRight =
      { grid :=
          { allocated iProc numGrids dx numVar junk with
            variablesData_ :=
              (constructSync iProc numGrids dx numVar localOperator junk).waitTillDone
                (writeAll numVar
                  (fun i => localOperator
                    ((allocated iProc numGrids dx numVar junk).initializationPoint i))
                  (alloc junk (numVar * (numGrids + 2))) (sweepOrder numGrids))
                fromLeft fromRight }
        calls := (sweepOrder numGrids).map
          (fun i => (allocated iProc numGrids dx numVar junk).initializationPoint i)
        status := Status.done } := by
  have hfold := foldl_run_eq
    ((allocated iProc numGrids dx numVar junk).applyInitialization_ numVar localOperator) numVar
    (fun i => localOperator ((allocated iProc numGrids dx numVar junk).initializationPoint i))
    (fun i => (allocated iProc numGrids dx numVar junk).initializationPoint i)
    (fun run i => applyInitialization_eq _ numVar localOperator run i)
    (List.range' 2 (numGrids - 2))
    (constructBoundary iProc numGrids dx numVar localOperator junk)
  simp only [construct, constructSync]
  rw [hfold, constructBoundary_eq]
  simp [writeAll, sweepOrder]

theorem applyOp_eq_applyOpEager (self : ClassicDiscretization1D) (numInput numOutput : Nat)
    (localOperator : LocalOperator) (junk : Nat → ℚ)
    (fromLeft fromRight : Option (List ℚ)) :
    self.applyOp numInput numOutput localOperator junk fromLeft fromRight =
      self.applyOpEager numInput numOutput localOperator junk fromLeft fromRight := by
  by_cases hpre : numInput = self.numVariables_
  · have hstep := fun run i =>
      applyLocalOp_eq self numInput numOutput localOperator self.variablesData_ run i
    simp only [applyOp, applyOpEager, hpre, ne_eq, not_true_eq_false, if_false]
    rw [← hpre]
    rw [foldl_run_eq _ numOutput _ _ hstep, foldl_run_eq _ numOutput _ _ hstep]
    rw [waitTillDone_writeAll_comm
      (ClassicSyncer1D.start (self.applyOpBoundary numInput numOutput localOperator junk).output
        self.numGrids_ numOutput) self.numGrids_ numOutput rfl rfl]
  · simp [applyOp, applyOpEager, hpre]

theorem construct_eq_constructEager (iProc numGrids : Nat) (dx : ℚ) (numVar : Nat)
    (localOperator : LocalOperator) (junk : Nat → ℚ)
    (fromLeft fromRight : Option (List ℚ)) :
    construct iProc numGrids dx numVar localOperator junk fromLeft fromRight =
      constructEager iProc numGrids dx numVar localOperator junk fromLeft fromRight := by
  have hstep := fun run i =>
    applyInitialization_eq (allocated iProc numGrids dx numVar junk) numVar localOperator run i
  simp only [construct, constructEager]
  rw [foldl_run_eq _ numVar _ _ hstep, foldl_run_eq _ numVar _ _ hstep]
  rw [waitTillDone_writeAll_comm
    (ClassicSyncer1D.start (constructBoundary iProc numGrids dx numVar localOperator junk).output
      numGrids numVar) numGrids numVar rfl rfl]

end ClassicDiscretization1D

theorem point_fits (i numGrids numVar : Nat) (h : i ≤ numGrids + 1) :
    i * numVar + numVar ≤ numVar * (numGrids + 2) := by
  have h3 : (i + 1) * numVar ≤ (numGrids + 2) * numVar :=
    Nat.mul_le_mul_right numVar (by omega)
  rw [Nat.add_mul, Nat.one_mul] at h3
  rw [Nat.mul_comm numVar]
  exact h3

namespace ClassicDiscretization1D

theorem applyOp_status_done (self : ClassicDiscretization1D) (numInput numOutput : Nat)
    (localOperator : LocalOperator) (junk : Nat → ℚ)
    (fromLeft fromRight : Option (List ℚ)) (hpre : numInput = self.numVariables_) :
    (self.applyOp numInput numOutput localOperator junk fromLeft fromRight).status
      = Status.done := by
  rw [applyOp_ok self numInput numOutput localOperator junk fromLeft fromRight hpre]

theorem applyOp_numGrids (self : ClassicDiscretization1D) (numInput numOutput : Nat)
    (localOperator : LocalOperator) (junk : Nat → ℚ)
    (fromLeft fromRight : Option (List ℚ)) :
    (self.applyOp numInput numOutput localOperator junk fromLeft fromRight).grid.numGrids_
      = self.numGrids_ := by
  by_cases hpre : numInput = self.numVariables_
  · rw [applyOp_ok self numInput numOutput localOperator junk fromLeft fromRight hpre]
  · simp [applyOp, hpre]

theorem readPoint_applyOp_owned (self : ClassicDiscretization1D) (numInput numOutput : Nat)
    (localOperator : LocalOperator) (junk : Nat → ℚ)
    (fromLeft fromRight : Option (List ℚ))
    (hpre : numInput = self.numVariables_)
    (hop : ∀ p, (localOperator p).length = numOutput)
    (i : Nat) (h1 : 1 ≤ i) (h2 : i ≤ self.numGrids_) :
    readPoint
        (self.applyOp numInput numOutput localOperator junk fromLeft fromRight).grid.variablesData_
        numOutput i =
      localOperator (self.localPoint numInput self.variablesData_ i) := by
  rw [applyOp_ok self numInput numOutput localOperator junk fromLeft fromRight hpre]
  simp only
  rw [readPoint_waitTillDone_owned _ self.numGrids_ numOutput rfl rfl _ fromLeft fromRight i h1 h2]
  have hfit : i * numOutput + numOutput ≤
      (alloc junk (numOutput * (self.numGrids_ + 2))).length := by
    rw [length_alloc]
    exact point_fits i self.numGrids_ numOutput (by omega)
  exact readPoint_writeAll_mem numOutput _ i (hop _) (sweepOrder self.numGrids_) _
    (mem_sweepOrder self.numGrids_ i h1 h2) hfit

theorem readPoint_applyOp_ghost_right (self : ClassicDiscretization1D)
    (numInput numOutput : Nat) (localOperator : LocalOperator) (junk : Nat → ℚ)
    (fromLeft : Option (List ℚ)) (m : List ℚ)
    (hpre : numInput = self.numVariables_) (hm : m.length = numOutput) :
    readPoint
        (self.applyOp numInput numOutput localOperator junk fromLeft (some m)).grid.variablesData_
        numOutput (self.numGrids_ + 1) = m := by
  rw [applyOp_ok self numInput numOutput localOperator junk fromLeft (some m) hpre]
  simp only
  apply readPoint_waitTillDone_right _ self.numGrids_ numOutput rfl rfl _ fromLeft m hm
  rw [length_writeAll, length_alloc]
  exact point_fits (self.numGrids_ + 1) self.numGrids_ numOutput (by omega)

theorem readPoint_applyOp_ghost_left (self : ClassicDiscretization1D)
    (numInput numOutput : Nat) (localOperator : LocalOperator) (junk : Nat → ℚ)
    (fromRight : Option (List ℚ)) (m : List ℚ)
    (hpre : numInput = self.numVariables_) (hm : m.length = numOutput) :
    readPoint
        (self.applyOp numInput numOutput localOperator junk (some m) fromRight).grid.variablesData_
        numOutput 0 = m := by
  rw [applyOp_ok self numInput numOutput localOperator junk (some m) fromRight hpre]
  simp only
  apply readPoint_waitTillDone_left _ numOutput rfl _ fromRight m hm
  rw [length_writeAll, length_alloc]
  have h := point_fits 0 self.numGrids_ numOutput (by omega)
  omega

theorem applyOpSync_toLeft (self : ClassicDiscretization1D) (numInput numOutput : Nat)
    (localOperator : LocalOperator) (junk : Nat → ℚ)
    (hop : ∀ p, (localOperator p).length = numOutput) :
    (self.applyOpSync numInput numOutput localOperator junk).toLeft =
      localOperator (self.localPoint numInput self.variablesData_ 1) := by
  simp only [applyOpSync, ClassicSyncer1D.start, applyOpBoundary_eq]
  apply readPoint_writeAll_mem numOutput _ 1 (hop _) [1, self.numGrids_] _ (by simp)
  rw [length_alloc]
  exact point_fits 1 self.numGrids_ numOutput (by omega)

theorem applyOpSync_toRight (self : ClassicDiscretization1D) (numInput numOutput : Nat)
    (localOperator : LocalOperator) (junk : Nat → ℚ)
    (hop : ∀ p, (localOperator p).length = numOutput) :
    (self.applyOpSync numInput numOutput localOperator junk).toRight =
      localOperator (self.localPoint numInput self.variablesData_ self.numGrids_) := by
  simp only [applyOpSync, ClassicSyncer1D.start, applyOpBoundary_eq]
  apply readPoint_writeAll_mem numOutput _ self.numGrids_ (hop _) [1, self.numGrids_] _ (by simp)
  rw [length_alloc]
  exact point_fits self.numGrids_ self.numGrids_ numOutput (by omega)

theorem length_readPoint (data : List ℚ) (numVar i : Nat)
    (hfit : i * numVar + numVar ≤ data.length) :
    (readPoint data numVar i).length = numVar := by
  simp only [readPoint, List.length_take, List.length_drop]
  omega

theorem boundary_not_mem_interior (numGrids j : Nat) (h : j = 1 ∨ j = numGrids) :
    j ∉ List.range' 2 (numGrids - 2) := by
  simp only [List.mem_range'_1]
  omega

theorem length_applyOp_data (self : ClassicDiscretization1D) (numInput numOutput : Nat)
    (localOperator : LocalOperator) (junk : Nat → ℚ)
    (fromLeft fromRight : Option (List ℚ)) (hpre : numInput = self.numVariables_) :
    (self.applyOp numInput numOutput localOperator junk fromLeft
      fromRight).grid.variablesData_.length = (self.numGrids_ + 2) * numOutput := by
  rw [applyOp_ok self numInput numOutput localOperator junk fromLeft fromRight hpre]
  simp only
  rw [length_waitTillDone, length_writeAll, length_alloc, Nat.mul_comm]

theorem applyOp_numVariables (self : ClassicDiscretization1D) (numInput numOutput : Nat)
    (localOperator : LocalOperator) (junk : Nat → ℚ)
    (fromLeft fromRight : Option (List ℚ)) (hpre : numInput = self.numVariables_) :
    (self.applyOp numInput numOutput localOperator junk fromLeft fromRight).grid.numVariables_
      = numOutput := by
  rw [applyOp_ok self numInput numOutput localOperator junk fromLeft fromRight hpre]

theorem readPoint_applyOp_boundary (self : ClassicDiscretization1D) (numInput numOutput : Nat)
    (localOperator : LocalOperator) (junk : Nat → ℚ)
    (fromLeft fromRight : Option (List ℚ)) (hpre : numInput = self.numVariables_)
    (hgrids : 1 ≤ self.numGrids_) (j : Nat) (hj : j = 1 ∨ j = self.numGrids_) :
    readPoint
        (self.applyOp numInput numOutput localOperator junk fromLeft fromRight).grid.variablesData_
        numOutput j =
      readPoint (self.applyOpBoundary numInput numOutput localOperator junk).output
        numOutput j := by
  rw [applyOp_ok self numInput numOutput localOperator junk fromLeft fromRight hpre]
  simp only
  rw [readPoint_waitTillDone_owned _ self.numGrids_ numOutput rfl rfl _ fromLeft fromRight j
    (by omega) (by omega), applyOpBoundary_eq]
  exact readPoint_writeAll_not_mem numOutput _ j (List.range' 2 (self.numGrids_ - 2)) _
    (boundary_not_mem_interior self.numGrids_ j hj)

theorem readPoint_applyOp_owned_at (self : ClassicDiscretization1D) (numInput numOutput : Nat)
    (localOperator : LocalOperator) (junk : Nat → ℚ)
    (fromLeft fromRight : Option (List ℚ))
    (hpre : numInput = self.numVariables_)
    (i : Nat) (h1 : 1 ≤ i) (h2 : i ≤ self.numGrids_)
    (hop : (localOperator (self.localPoint numInput self.variablesData_ i)).length
      = numOutput) :
    readPoint
        (self.applyOp numInput numOutput localOperator junk fromLeft fromRight).grid.variablesData_
        numOutput i =
      localOperator (self.localPoint numInput self.variablesData_ i) := by
  rw [applyOp_ok self numInput numOutput localOperator junk fromLeft fromRight hpre]
  simp only
  rw [readPoint_waitTillDone_owned _ self.numGrids_ numOutput rfl rfl _ fromLeft fromRight i h1 h2]
  have hfit : i * numOutput + numOutput ≤
      (alloc junk (numOutput * (self.numGrids_ + 2))).length := by
    rw [length_alloc]
    exact point_fits i self.numGrids_ numOutput (by omega)
  exact readPoint_writeAll_mem numOutput _ i hop (sweepOrder self.numGrids_) _
    (mem_sweepOrder self.numGrids_ i h1 h2) hfit

theorem length_applyOpSync_toLeft (self : ClassicDiscretization1D) (numInput numOutput : Nat)
    (localOperator : LocalOperator) (junk : Nat → ℚ) :
    (self.applyOpSync numInput numOutput localOperator junk).toLeft.length = numOutput := by
  simp only [applyOpSync, ClassicSyncer1D.start, applyOpBoundary_eq]
  apply length_readPoint
  rw [length_writeAll, length_alloc]
  exact point_fits 1 self.numGrids_ numOutput (by omega)

theorem length_applyOpSync_toRight (self : ClassicDiscretization1D) (numInput numOutput : Nat)
    (localOperator : LocalOperator) (junk : Nat → ℚ) :
    (self.applyOpSync numInput numOutput localOperator junk).toRight.length = numOutput := by
  simp only [applyOpSync, ClassicSyncer1D.start, applyOpBoundary_eq]
  apply length_readPoint
  rw [length_writeAll, length_alloc]
  exact point_fits self.numGrids_ self.numGrids_ numOutput (by omega)

end ClassicDiscretization1D

/-! ## The claims -/

namespace ClassicDiscretization1D

/-- C1: for an operator that writes its `numOutput` values, `applyOp` with a
matching input count completes, and every owned slot `i` in `1..numGrids` of the
new buffer holds the operator's output on the view made of the old buffer's
values at `i` (centre), `i-1` (left) and `i+1` (right). -/
theorem applyOp_owned_from_old (self : ClassicDiscretization1D) (numInput numOutput : Nat)
    (localOperator : LocalOperator) (junk : Nat → ℚ)
    (fromLeft fromRight : Option (List ℚ))
    (hpre : numInput = self.numVariables_)
    (hop : ∀ p, (localOperator p).length = numOutput)
    (i : Nat) (h1 : 1 ≤ i) (h2 : i ≤ self.numGrids_) :
    (self.applyOp numInput numOutput localOperator junk fromLeft fromRight).status
        = Status.done ∧
      readPoint
        (self.applyOp numInput numOutput localOperator junk fromLeft fromRight).grid.variablesData_
        numOutput i =
      localOperator
        { x := i * self.dx_
          inputs := readPoint self.variablesData_ numInput i
          left := some
            { x := ((i : ℚ) - 1) * self.dx_
              inputs := readPoint self.variablesData_ numInput (i - 1) }
          right := some
            { x := ((i : ℚ) + 1) * self.dx_
              inputs := readPoint self.variablesData_ numInput (i + 1) } } := by
  refine ⟨applyOp_status_done self numInput numOutput localOperator junk fromLeft fromRight hpre,
    ?_⟩
  rw [readPoint_applyOp_owned self numInput numOutput localOperator junk fromLeft fromRight hpre
    hop i h1 h2]
  have hi : i ≠ 0 := by omega
  simp [localPoint, hi]

/-- Witness for C1 on the sample grid: owned point 2 of the new buffer is the
sample operator on coordinate 1 and the old values 20, 10 and 40. -/
theorem applyOp_owned_from_old_witness :
    readPoint
      (sampleGrid.applyOp 1 1 sampleOperator (fun _ => 0) none none).grid.variablesData_ 1 2
      = [71] := by
  rw [(applyOp_owned_from_old sampleGrid 1 1 sampleOperator (fun _ => 0) none none rfl
    (fun _ => rfl) 2 (by decide) (by decide)).2]
  simp [sampleGrid, sampleOperator, readPoint]
  norm_num

/-- C2: in a chain whose ranks all pass the assertion, let rank `r` and its
right neighbour `r + 1` each own at least one point. After one `applyOp` step
both have completed with a buffer of `(numGrids + 2) * numOutput` values; the
ghost slot `numGrids + 1` of rank `r` equals the owned point 1 of rank `r + 1`
and the ghost slot 0 of rank `r + 1` equals the owned point `numGrids` of rank
`r`, each with all `numOutput` variables; and these two owned points hold what
the operator wrote on the old buffer of their own rank, whenever it wrote its
`numOutput` values there. -/
theorem chainApplyOp_ghost_consistency (ranks : List ClassicDiscretization1D)
    (numInput numOutput : Nat) (localOperator : LocalOperator) (junk : Nat → Nat → ℚ)
    (hpre : ∀ g ∈ ranks, numInput = g.numVariables_)
    (r : Nat) (ga gb : ClassicDiscretization1D)
    (hra : ranks[r]? = some ga) (hrb : ranks[r + 1]? = some gb)
    (hga : 1 ≤ ga.numGrids_) (hgb : 1 ≤ gb.numGrids_) :
    ∃ a b : Outcome,
      chainApplyOp ranks numInput numOutput localOperator junk r = some a ∧
      chainApplyOp ranks numInput numOutput localOperator junk (r + 1) = some b ∧
      a.status = Status.done ∧ b.status = Status.done ∧
      a.grid.numGrids_ = ga.numGrids_ ∧ b.grid.numGrids_ = gb.numGrids_ ∧
      a.grid.numVariables_ = numOutput ∧ b.grid.numVariables_ = numOutput ∧
      a.grid.variablesData_.length = (ga.numGrids_ + 2) * numOutput ∧
      b.grid.variablesData_.length = (gb.numGrids_ + 2) * numOutput ∧
      readPoint a.grid.variablesData_ numOutput (ga.numGrids_ + 1) =
        readPoint b.grid.variablesData_ numOutput 1 ∧
      readPoint b.grid.variablesData_ numOutput 0 =
        readPoint a.grid.variablesData_ numOutput ga.numGrids_ ∧
      (readPoint b.grid.variablesData_ numOutput 1).length = numOutput ∧
      (readPoint a.grid.variablesData_ numOutput ga.numGrids_).length = numOutput ∧
      ((localOperator (gb.localPoint numInput gb.variablesData_ 1)).length = numOutput →
        readPoint b.grid.variablesData_ numOutput 1 =
          localOperator (gb.localPoint numInput gb.variablesData_ 1)) ∧
      ((localOperator (ga.localPoint numInput ga.variablesData_ ga.numGrids_)).length
          = numOutput →
        readPoint a.grid.variablesData_ numOutput ga.numGrids_ =
          localOperator (ga.localPoint numInput ga.variablesData_ ga.numGrids_)) := by
  have hpa := hpre ga (List.getElem?_mem hra)
  have hpb := hpre gb (List.getElem?_mem hrb)
  have hA : chainApplyOp ranks numInput numOutput localOperator junk r =
      some (ga.applyOp numInput numOutput localOperator (junk r)
        (if r = 0 then none
          else (ranks[r - 1]?).map fun nb =>
            (nb.applyOpSync numInput numOutput localOperator (junk (r - 1))).toRight)
        (some (gb.applyOpSync numInput numOutput localOperator (junk (r + 1))).toLeft)) := by
    simp only [chainApplyOp, hra, hrb, Option.map_some']
  have hB : chainApplyOp ranks numInput numOutput localOperator junk (r + 1) =
      some (gb.applyOp numInput numOutput localOperator (junk (r + 1))
        (some (ga.applyOpSync numInput numOutput localOperator (junk r)).toRight)
        ((ranks[r + 1 + 1]?).map fun nb =>
          (nb.applyOpSync numInput numOutput localOperator (junk (r + 1 + 1))).toLeft)) := by
    simp only [chainApplyOp, hrb, Nat.add_sub_cancel, hra, Option.map_some', Nat.succ_ne_zero,
      if_false]
  have hb1 := readPoint_applyOp_boundary gb numInput numOutput localOperator (junk (r + 1))
    (some (ga.applyOpSync numInput numOutput localOperator (junk r)).toRight)
    ((ranks[r + 1 + 1]?).map fun nb =>
      (nb.applyOpSync numInput numOutput localOperator (junk (r + 1 + 1))).toLeft)
    hpb hgb 1 (Or.inl rfl)
  have haN := readPoint_applyOp_boundary ga numInput numOutput localOperator (junk r)
    (if r = 0 then none
      else (ranks[r - 1]?).map fun nb =>
        (nb.applyOpSync numInput numOutput localOperator (junk (r - 1))).toRight)
    (some (gb.applyOpSync numInput numOutput localOperator (junk (r + 1))).toLeft)
    hpa hga ga.numGrids_ (Or.inr rfl)
  refine ⟨_, _, hA, hB, applyOp_status_done _ _ _ _ _ _ _ hpa,
    applyOp_status_done _ _ _ _ _ _ _ hpb, applyOp_numGrids _ _ _ _ _ _ _,
    applyOp_numGrids _ _ _ _ _ _ _, applyOp_numVariables _ _ _ _ _ _ _ hpa,
    applyOp_numVariables _ _ _ _ _ _ _ hpb, length_applyOp_data _ _ _ _ _ _ _ hpa,
    length_applyOp_data _ _ _ _ _ _ _ hpb, ?_, ?_, ?_, ?_, ?_, ?_⟩
  · rw [readPoint_applyOp_ghost_right _ _ _ _ _ _ _ hpa (length_applyOpSync_toLeft _ _ _ _ _),
      hb1]
    rfl
  · rw [readPoint_applyOp_ghost_left _ _ _ _ _ _ _ hpb (length_applyOpSync_toRight _ _ _ _ _),
      haN]
    rfl
  · rw [hb1]
    exact length_applyOpSync_toLeft gb numInput numOutput localOperator (junk (r + 1))
  · rw [haN]
    exact length_applyOpSync_toRight ga numInput numOutput localOperator (junk r)
  · intro hop
    exact readPoint_applyOp_owned_at _ _ _ _ _ _ _ hpb 1 (le_refl 1) hgb hop
  · intro hop
    exact readPoint_applyOp_owned_at _ _ _ _ _ _ _ hpa _ hga (le_refl _) hop

/-- Witness for C2 on a chain of three sample grids, ranks 1 and 2: the ghost
slot 3 of rank 1 and the owned point 1 of rank 2 both hold 71/2, the ghost slot
0 of rank 2 and the owned point 2 of rank 1 both hold 71. -/
theorem chainApplyOp_ghost_consistency_witness :
    ∃ a b : Outcome,
      chainApplyOp [sampleGrid, sampleGrid, sampleGrid] 1 1 sampleOperator (fun _ _ => 0) 1
        = some a ∧
      chainApplyOp [sampleGrid, sampleGrid, sampleGrid] 1 1 sampleOperator (fun _ _ => 0) 2
        = some b ∧
      a.grid.variablesData_.length = 4 ∧ b.grid.variablesData_.length = 4 ∧
      readPoint a.grid.variablesData_ 1 3 = [71 / 2] ∧
      readPoint b.grid.variablesData_ 1 1 = [71 / 2] ∧
      readPoint b.grid.variablesData_ 1 0 = [71] ∧
      readPoint a.grid.variablesData_ 1 2 = [71] := by
  obtain ⟨a, b, ha, hb, _, _, _, _, _, _, hla, hlb, hright, hleft, _, _, hb1, haN⟩ :=
    chainApplyOp_ghost_consistency [sampleGrid, sampleGrid, sampleGrid] 1 1 sampleOperator
      (fun _ _ => 0)
      (by intro g hg; simp at hg; subst hg; rfl)
      1 sampleGrid sampleGrid rfl rfl (by decide) (by decide)
  have hb1v : readPoint b.grid.variablesData_ 1 1 = [71 / 2] := by
    rw [hb1 rfl]
    simp [sampleGrid, sampleOperator, localPoint, readPoint]
    norm_num
  have haNv : readPoint a.grid.variablesData_ 1 2 = [71] := by
    have h := haN rfl
    simp only [sampleGrid] at h
    rw [h]
    simp [sampleOperator, localPoint, readPoint]
    norm_num
  refine ⟨a, b, ha, hb, hla, hlb, ?_, hb1v, ?_, haNv⟩
  · have h := hright
    simp only [sampleGrid] at h
    rw [h]
    exact hb1v
  · rw [hleft]
    exact haNv

/-- C3: `applyOp` stops at the assertion exactly when `numInput` differs from
the current variable count; when it does, the operator has not been invoked and
the object (buffer and variable count included) is as before; with equal counts
the run completes. -/
theorem applyOp_assert_iff (self : ClassicDiscretization1D) (numInput numOutput : Nat)
    (localOperator : LocalOperator) (junk : Nat → ℚ)
    (fromLeft fromRight : Option (List ℚ)) :
    ((self.applyOp numInput numOutput localOperator junk fromLeft fromRight).status
        = Status.assertFailed ↔ numInput ≠ self.numVariables_) ∧
    ((self.applyOp numInput numOutput localOperator junk fromLeft fromRight).status
        = Status.assertFailed →
      (self.applyOp numInput numOutput localOperator junk fromLeft fromRight).calls = [] ∧
      (self.applyOp numInput numOutput localOperator junk fromLeft fromRight).grid = self) ∧
    (numInput = self.numVariables_ →
      (self.applyOp numInput numOutput localOperator junk fromLeft fromRight).status
        = Status.done) := by
  by_cases hpre : numInput = self.numVariables_
  · have hdone := applyOp_status_done self numInput numOutput localOperator junk fromLeft
      fromRight hpre
    rw [hdone]
    simp [hpre]
  · simp [applyOp, hpre]

/-- Witness for C3: the sample grid holds one variable, so an operator declared
with two inputs stops at the assertion and leaves the grid as it was. -/
theorem applyOp_assert_iff_witness :
    (sampleGrid.applyOp 2 1 sampleOperator (fun _ => 0) none none).calls = [] ∧
      (sampleGrid.applyOp 2 1 sampleOperator (fun _ => 0) none none).grid = sampleGrid :=
  (applyOp_assert_iff sampleGrid 2 1 sampleOperator (fun _ => 0) none none).2.1
    (by simp [applyOp, sampleGrid])

/-- C4: after an `applyOp` that passes the assertion, the grid has `numOutput`
variables and a buffer of `(numGrids + 2) * numOutput` values; and when
`numOutput ≠ numInput`, any following `applyOp` declared with `numInput` inputs
stops at the assertion. -/
theorem applyOp_variable_count (self : ClassicDiscretization1D) (numInput numOutput : Nat)
    (localOperator : LocalOperator) (junk : Nat → ℚ)
    (fromLeft fromRight : Option (List ℚ))
    (hpre : numInput = self.numVariables_) :
    (self.applyOp numInput numOutput localOperator junk fromLeft fromRight).status
        = Status.done ∧
    (self.applyOp numInput numOutput localOperator junk fromLeft fromRight).grid.numVariables_
        = numOutput ∧
    (self.applyOp numInput numOutput localOperator junk fromLeft
        fromRight).grid.variablesData_.length = (self.numGrids_ + 2) * numOutput ∧
    (numOutput ≠ numInput →
      ∀ (numOutput2 : Nat) (nextOperator : LocalOperator) (junk2 : Nat → ℚ)
        (fromLeft2 fromRight2 : Option (List ℚ)),
        ((self.applyOp numInput numOutput localOperator junk fromLeft fromRight).grid.applyOp
          numInput numOutput2 nextOperator junk2 fromLeft2 fromRight2).status
          = Status.assertFailed) := by
  rw [applyOp_ok self numInput numOutput localOperator junk fromLeft fromRight hpre]
  refine ⟨rfl, rfl, ?_, ?_⟩
  · simp only
    rw [length_waitTillDone, length_writeAll, length_alloc, Nat.mul_comm]
  · intro hne numOutput2 nextOperator junk2 fromLeft2 fromRight2
    have h : numInput ≠ numOutput := fun h => hne h.symm
    simp [applyOp, h]

/-- Witness for C4: the sample grid after a 1-to-2 operator has two variables
and `(2 + 2) * 2` values, and the next 1-input operator stops at the
assertion. -/
theorem applyOp_variable_count_witness :
    (sampleGrid.applyOp 1 2 sampleOperator2 (fun _ => 0) none none).grid.numVariables_ = 2 ∧
    (sampleGrid.applyOp 1 2 sampleOperator2 (fun _ => 0) none none).grid.variablesData_.length
      = (2 + 2) * 2 ∧
    ((sampleGrid.applyOp 1 2 sampleOperator2 (fun _ => 0) none none).grid.applyOp
      1 1 sampleOperator (fun _ => 0) none none).status = Status.assertFailed :=
  have h := applyOp_variable_count sampleGrid 1 2 sampleOperator2 (fun _ => 0) none none rfl
  ⟨h.2.1, h.2.2.1, h.2.2.2 (by decide) 1 sampleOperator (fun _ => 0) none none⟩

/-- C5: `applyOp` and the constructor produce the same outcome (final buffer
with owned and ghost slots, variable count, operator calls, status) whether the
exchange is awaited right after it is issued or only after the interior points
`2 .. numGrids - 1` have been processed. -/
theorem overlap_eq_eager (self : ClassicDiscretization1D) (numInput numOutput : Nat)
    (localOperator : LocalOperator) (junk : Nat → ℚ)
    (fromLeft fromRight : Option (List ℚ)) (iProc numGrids : Nat) (dx : ℚ) (numVar : Nat) :
    self.applyOp numInput numOutput localOperator junk fromLeft fromRight =
        self.applyOpEager numInput numOutput localOperator junk fromLeft fromRight ∧
      construct iProc numGrids dx numVar localOperator junk fromLeft fromRight =
        constructEager iProc numGrids dx numVar localOperator junk fromLeft fromRight :=
  ⟨applyOp_eq_applyOpEager self numInput numOutput localOperator junk fromLeft fromRight,
    construct_eq_constructEager iProc numGrids dx numVar localOperator junk fromLeft fromRight⟩

/-- C6 (as the code has it): in the constructor of rank `iProc`, the views
handed to the initialiser are those of the points 1, `numGrids`, 2, ...,
`numGrids - 1` with coordinate `numGrids * dx * iProc + i * dx` for point `i`,
and for an initialiser that writes its `numVar` values every owned slot `i` in
`1..numGrids` ends up holding the initialiser's output at that coordinate. -/
theorem construct_coordinate (iProc numGrids : Nat) (dx : ℚ) (numVar : Nat)
    (localOperator : LocalOperator) (junk : Nat → ℚ)
    (fromLeft fromRight : Option (List ℚ))
    (hop : ∀ p, (localOperator p).length = numVar)
    (i : Nat) (h1 : 1 ≤ i) (h2 : i ≤ numGrids) :
    (construct iProc numGrids dx numVar localOperator junk fromLeft fromRight).calls =
        (1 :: numGrids :: List.range' 2 (numGrids - 2)).map
          (fun k => { x := numGrids * dx * iProc + k * dx, inputs := [],
                      left := none, right := none }) ∧
      i ∈ 1 :: numGrids :: List.range' 2 (numGrids - 2) ∧
      readPoint
        (construct iProc numGrids dx numVar localOperator junk fromLeft
          fromRight).grid.variablesData_ numVar i =
        localOperator { x := numGrids * dx * iProc + i * dx, inputs := [],
                        left := none, right := none } := by
  rw [construct_ok]
  refine ⟨rfl, mem_sweepOrder numGrids i h1 h2, ?_⟩
  simp only
  rw [readPoint_waitTillDone_owned _ numGrids numVar rfl rfl _ fromLeft fromRight i h1 h2]
  have hfit : i * numVar + numVar ≤ (alloc junk (numVar * (numGrids + 2))).length := by
    rw [length_alloc]
    exact point_fits i numGrids numVar (by omega)
  exact readPoint_writeAll_mem numVar _ i (hop _) (sweepOrder numGrids) _
    (mem_sweepOrder numGrids i h1 h2) hfit

/-- Witness for C6 (as the code has it): on rank 1 with four points of spacing 1
the first owned point is initialised at coordinate `4 * 1 * 1 + 1 * 1 = 5`. -/
theorem construct_coordinate_witness :
    readPoint
      (construct 1 4 1 1 coordinateInitializer (fun _ => 0) none none).grid.variablesData_ 1 1
      = [5] := by
  rw [(construct_coordinate 1 4 1 1 coordinateInitializer (fun _ => 0) none none
    (fun _ => rfl) 1 (by decide) (by decide)).2.2]
  simp [coordinateInitializer]
  norm_num

/-- C6 as stated fails: on rank 1 with four points of spacing 1 the initialiser
is handed the coordinates 5, 8, 6, 7 (points 1, 4, 2, 3), none of which is the
stated coordinate `x0 + (1 - 1) * dx = 4` of the first owned point. -/
theorem construct_coordinate_counterexample :
    (construct 1 4 1 1 coordinateInitializer (fun _ => 0) none none).calls.map (fun p => p.x)
        = [5, 8, 6, 7] ∧
      commonInit_ 4 1 1 + ((1 : ℚ) - 1) * 1 = 4 ∧
      ¬ ∃ p ∈ (construct 1 4 1 1 coordinateInitializer (fun _ => 0) none none).calls,
          p.x = commonInit_ 4 1 1 + ((1 : ℚ) - 1) * 1 := by
  refine ⟨?_, ?_, ?_⟩
  · simp [construct, constructBoundary, applyInitialization_, initializationPoint, allocated,
      commonInit_, List.range']
    norm_num
  · simp [commonInit_]
  · simp [construct, constructBoundary, applyInitialization_, initializationPoint, allocated,
      commonInit_, List.range']

/-- Coordinate continuity holds for the views built by the constructor: the
coordinate of the last owned point of rank `r` plus `dx` is the coordinate of
the first owned point of rank `r + 1`. -/
theorem construct_coordinate_continuity (r numGrids : Nat) (dx : ℚ) (numVar : Nat)
    (junk junk2 : Nat → ℚ) :
    ((allocated r numGrids dx numVar junk).initializationPoint numGrids).x + dx =
      ((allocated (r + 1) numGrids dx numVar junk2).initializationPoint 1).x := by
  simp only [initializationPoint, allocated, commonInit_]
  push_cast
  ring

/-- The views built by `applyOp` carry no rank offset: whatever the two grids,
with common `numGrids` and `dx` the coordinate of the last owned point plus `dx`
exceeds the coordinate of the first owned point by `numGrids * dx`. -/
theorem applyOp_coordinate_offset (g g2 : ClassicDiscretization1D) (numInput : Nat)
    (input input2 : List ℚ) (hdx : g2.dx_ = g.dx_) :
    (g.localPoint numInput input g.numGrids_).x + g.dx_ -
      (g2.localPoint numInput input2 1).x = g.numGrids_ * g.dx_ := by
  simp only [localPoint, hdx]
  push_cast
  ring

/-- C7 at the failing input: ranks 0 and 1 built for four points of spacing 1
both hand their operator the coordinates 1, 4, 2, 3 during `applyOp`, so the
last owned coordinate of rank 0 plus `dx` is 5 while the first owned coordinate
of rank 1 is 1, not 5. -/
theorem applyOp_coordinate_gap :
    ((rankGrid 0).applyOp 1 1 sampleOperator (fun _ => 0) none none).calls.map (fun p => p.x)
        = [1, 4, 2, 3] ∧
      ((rankGrid 1).applyOp 1 1 sampleOperator (fun _ => 0) none none).calls.map (fun p => p.x)
        = [1, 4, 2, 3] ∧
      ((rankGrid 0).localPoint 1 (rankGrid 0).variablesData_ 4).x + 1 = 5 ∧
      ((rankGrid 1).localPoint 1 (rankGrid 1).variablesData_ 1).x = 1 := by
  refine ⟨?_, ?_, ?_, ?_⟩
  · simp [applyOp, applyOpBoundary, applyLocalOp_, localPoint, rankGrid, construct, allocated,
      List.range']
  · simp [applyOp, applyOpBoundary, applyLocalOp_, localPoint, rankGrid, construct, allocated,
      List.range']
  · simp [localPoint, rankGrid, construct, allocated]
    norm_num
  · simp [localPoint, rankGrid, construct, allocated]

/-- C8 (as the code has it): in the two-rank scenario with four points of
spacing 1 and the coordinate as the single variable, after construction the
ghost slot 5 of rank 0 holds 5 and the ghost slot 0 of rank 1 holds 4, whatever
the allocated memory held. -/
theorem chainConstruct_scenario (junk : Nat → Nat → ℚ) :
    (chainConstruct 2 4 1 1 coordinateInitializer junk 0).map
        (fun o => (o.status, readPoint o.grid.variablesData_ 1 5))
        = some (Status.done, [5]) ∧
      (chainConstruct 2 4 1 1 coordinateInitializer junk 1).map
        (fun o => (o.status, readPoint o.grid.variablesData_ 1 0))
        = some (Status.done, [4]) := by
  constructor
  · simp [chainConstruct, construct, constructSync, constructBoundary, applyInitialization_,
      initializationPoint, allocated, commonInit_, coordinateInitializer, alloc, writePoint,
      writeSlots, readPoint, ClassicSyncer1D.waitTillDone, ClassicSyncer1D.start, List.range',
      List.range_succ]
    norm_num
  · simp [chainConstruct, construct, constructSync, constructBoundary, applyInitialization_,
      initializationPoint, allocated, commonInit_, coordinateInitializer, alloc, writePoint,
      writeSlots, readPoint, ClassicSyncer1D.waitTillDone, ClassicSyncer1D.start, List.range',
      List.range_succ]

/-- C8 as stated fails: in the scenario the ghost slot 5 of rank 0 is not 4 and
the ghost slot 0 of rank 1 is not 3. -/
theorem chainConstruct_scenario_counterexample :
    (chainConstruct 2 4 1 1 coordinateInitializer (fun _ _ => 0) 0).map
        (fun o => readPoint o.grid.variablesData_ 1 5) ≠ some [4] ∧
      (chainConstruct 2 4 1 1 coordinateInitializer (fun _ _ => 0) 1).map
        (fun o => readPoint o.grid.variablesData_ 1 0) ≠ some [3] := by
  constructor
  · simp [chainConstruct, construct, constructSync, constructBoundary, applyInitialization_,
      initializationPoint, allocated, commonInit_, coordinateInitializer, alloc, writePoint,
      writeSlots, readPoint, ClassicSyncer1D.waitTillDone, ClassicSyncer1D.start, List.range',
      List.range_succ]
  · simp [chainConstruct, construct, constructSync, constructBoundary, applyInitialization_,
      initializationPoint, allocated, commonInit_, coordinateInitializer, alloc, writePoint,
      writeSlots, readPoint, ClassicSyncer1D.waitTillDone, ClassicSyncer1D.start, List.range',
      List.range_succ]

/-- C9 at the failing input: on the sample grid (ghost 5, owned 10 and 20,
ghost 40) with every channel showing variable 0 unscaled, `variablesToColor`
emits two tuples, computed from the buffer points 0 and 1: the ghost value 5 is
shown in column 0 and the owned value 20 of point 2 is never read. -/
theorem variablesToColor_reads_ghost :
    variablesToColor sampleGrid unitColorMap 7 =
      { pixels := [⟨0, 7, 5, 5, 5⟩, ⟨1, 7, 10, 10, 10⟩]
        reads := [0, 0, 0, 1, 1, 1]
        status := ColorStatus.done } ∧
      readPoint sampleGrid.variablesData_ 1 1 = [10] ∧
      readPoint sampleGrid.variablesData_ 1 2 = [20] := by
  refine ⟨?_, ?_, ?_⟩
  · simp [variablesToColor, variablesToColorLoop, sampleGrid, unitColorMap,
      ColorMap.assertIVarLessThan, VarColor_.assertIVarLessThan, VarColor_.map, readCell,
      List.range_succ]
  · simp [sampleGrid, readPoint]
  · simp [sampleGrid, readPoint]

/-- C10 (as the code has it): when the grid has at least one point and the
variable index of some channel is at least the variable count, `variablesToColor`
stops at the assertion of its first iteration, before any buffer cell is read
and before any tuple is handed to the image writer. -/
theorem variablesToColor_index_too_large (self : ClassicDiscretization1D) (colorMap : ColorMap)
    (iStep : Int) (hgrids : 1 ≤ self.numGrids_)
    (hbad : (self.numVariables_ : Int) ≤ colorMap.red.iVar_ ∨
      (self.numVariables_ : Int) ≤ colorMap.green.iVar_ ∨
      (self.numVariables_ : Int) ≤ colorMap.blue.iVar_) :
    self.variablesToColor colorMap iStep =
      { pixels := [], reads := [], status := ColorStatus.assertFailed } := by
  have hcheck : colorMap.assertIVarLessThan self.numVariables_ = false := by
    simp only [ColorMap.assertIVarLessThan, VarColor_.assertIVarLessThan, Bool.and_eq_false_iff,
      decide_eq_false_iff_not, not_lt]
    rcases hbad with h | h | h
    · exact Or.inl (Or.inl h)
    · exact Or.inl (Or.inr h)
    · exact Or.inr h
  obtain ⟨n, hn⟩ : ∃ n, self.numGrids_ = n + 1 := ⟨self.numGrids_ - 1, by omega⟩
  rw [variablesToColor, hn, List.range_succ_eq_map, variablesToColorLoop, if_pos hcheck]

/-- Witness for C10 (as the code has it): the sample grid has one variable, and
a blue channel set to variable 1 stops `variablesToColor` at the assertion. -/
theorem variablesToColor_index_too_large_witness :
    variablesToColor sampleGrid { unitColorMap with blue := ⟨1, 0, 1⟩ } 7 =
      { pixels := [], reads := [], status := ColorStatus.assertFailed } :=
  variablesToColor_index_too_large sampleGrid { unitColorMap with blue := ⟨1, 0, 1⟩ } 7
    (by decide) (Or.inr (Or.inr (by decide)))

/-- C10 as stated fails: with the red channel set to variable -1 the assertion
passes and the cell at flat index -1 is dereferenced; and on a grid without
points a channel set to variable 3 of 1 is not checked at all. -/
theorem variablesToColor_index_counterexample :
    (variablesToColor sampleGrid { unitColorMap with red := ⟨-1, 0, 1⟩ } 7).status
        ≠ ColorStatus.assertFailed ∧
      (-1 : Int) ∈ (variablesToColor sampleGrid { unitColorMap with red := ⟨-1, 0, 1⟩ } 7).reads ∧
      (variablesToColor { sampleGrid with numGrids_ := 0, variablesData_ := [5, 40] }
        { unitColorMap with red := ⟨3, 0, 1⟩ } 7).status = ColorStatus.done := by
  refine ⟨?_, ?_, ?_⟩
  · simp [variablesToColor, variablesToColorLoop, sampleGrid, unitColorMap,
      ColorMap.assertIVarLessThan, VarColor_.assertIVarLessThan, VarColor_.map, readCell,
      List.range_succ]
  · simp [variablesToColor, variablesToColorLoop, sampleGrid, unitColorMap,
      ColorMap.assertIVarLessThan, VarColor_.assertIVarLessThan, VarColor_.map, readCell,
      List.range_succ]
  · simp [variablesToColor, variablesToColorLoop, sampleGrid]


end ClassicDiscretization1D

end Swept1D
